import Mathlib

/-!
Shallow embedding of the movie budget/revenue analysis script (src/main.py).

The script loads a CSV of film records, cleans currency columns by stripping
the characters matched by the pattern [$,] and converting to float, coerces
the Release_Date column to datetimes (unparseable values become the missing
sentinel NaT, modelled here as none), derives a Profit column, analyses the
bottom quartile of worldwide gross, reports budget/revenue extremes, filters
by a fixed release cutoff (2018-05-01) and fits a univariate least-squares
regression of worldwide gross on production budget.

Modelling conventions:
- Python float conversion (astype(float)) is modelled faithfully on cells by
  parsePyFloat below: it accepts optionally signed decimal literals with
  optional exponent and underscore digit grouping, plus the nan and
  inf/infinity literals, which survive conversion as NON-FINITE values.
  Finite values are carried exactly as rationals (the rounding of a decimal
  literal to the nearest double is not modelled).  The table model keeps the
  finite results (the analysed dataset's currency cells all denote finite
  decimals, where the restriction is exact).
- Timestamps are days since 1970-01-01 (pandas day resolution suffices: the
  dataset carries no time of day).  NaT is none.
- pandas comparison semantics: any order comparison against NaT is False.
- pandas Series.min and Series.max skip missing values; on an all-missing
  series the result is itself NaT.  NaT.date() returns NaT (it does not
  raise), which is how pandas behaves for the nat-returning methods.
- Fallible library calls are modelled in Except String.
-/

set_option allowUnsafeReducibility true

attribute [semireducible] Rat.add Rat.mul Rat.sub Rat.inv Rat.ofScientific

namespace MovieAnalysis

/-- A raw CSV record, all fields as text, exactly the five dataset columns. -/
structure RawRow where
  Movie_Title : String
  Release_Date : String
  USD_Production_Budget : String
  USD_Worldwide_Gross : String
  USD_Domestic_Gross : String
  deriving DecidableEq, Inhabited

/-- Strips every one of the characters matched by the regex class [$,],
    modelling Series.replace with that pattern and empty replacement. -/
def stripCurrency (s : String) : String :=
  String.mk (s.data.filter (fun c => !(c == '$' || c == ',')))

/-- Value of a digit string, most significant digit first. -/
def digitsVal (cs : List Char) : Nat :=
  cs.foldl (fun n c => 10 * n + (c.toNat - Char.toNat '0')) 0

/-- Surrounding whitespace removed, at the character level. -/
def trimWs (cs : List Char) : List Char :=
  ((cs.dropWhile Char.isWhitespace).reverse.dropWhile Char.isWhitespace).reverse

/-- Unsigned decimal literal: digits, optionally a decimal point with further
    digits; at least one digit overall.  Returns none otherwise. -/
def parseDecimalCore (cs : List Char) : Option ℚ :=
  let intDigits := cs.takeWhile Char.isDigit
  let rest := cs.dropWhile Char.isDigit
  match rest with
  | [] => if intDigits.isEmpty then none else some (digitsVal intDigits : ℚ)
  | '.' :: rest2 =>
    let fracDigits := rest2.takeWhile Char.isDigit
    let rest3 := rest2.dropWhile Char.isDigit
    if rest3.isEmpty && !(intDigits.isEmpty && fracDigits.isEmpty) then
      some ((digitsVal intDigits : ℚ) +
        (digitsVal fracDigits : ℚ) / ((10 : ℚ) ^ fracDigits.length))
    else none
  | _ => none

/-- All characters are decimal digits. -/
def allDigits (cs : List Char) : Bool := cs.all Char.isDigit

/-- The value of one Python float: a finite number (carried exactly as a
    rational), NaN, or a signed infinity. -/
inductive PyFloat where
  | num (q : ℚ)
  | nan
  | inf
  | ninf
  deriving DecidableEq, Inhabited

/-- Python permits the underscore as a digit-group separator in numeric
    literals, but only BETWEEN digits: each underscore must be immediately
    preceded and followed by a digit. -/
def underscoresOkAux : Option Char → List Char → Bool
  | _, [] => true
  | prev, c :: rest =>
    if c == '_' then
      (match prev with
        | some p => p.isDigit
        | none => false) &&
      (match rest with
        | r :: _ => r.isDigit
        | [] => false) &&
      underscoresOkAux (some c) rest
    else underscoresOkAux (some c) rest

/-- Every underscore of the character list is flanked by digits. -/
def underscoresOk (cs : List Char) : Bool := underscoresOkAux none cs

/-- The sign-stripped body of Python float conversion: the case-insensitive
    literals nan, inf and infinity are accepted (yielding non-finite values);
    otherwise the text must be a decimal literal — digits with optional
    underscore grouping, optional decimal point, optional e/E exponent with
    its own optional sign.  Returns none where float() raises ValueError. -/
def parsePyFloatCore (neg : Bool) (cs : List Char) : Option PyFloat :=
  let ls := cs.map Char.toLower
  if ls = ['n', 'a', 'n'] then some PyFloat.nan
  else if ls = ['i', 'n', 'f'] || ls = ['i', 'n', 'f', 'i', 'n', 'i', 't', 'y'] then
    some (if neg then PyFloat.ninf else PyFloat.inf)
  else if underscoresOk cs then
    let ds := cs.filter (fun c => !(c == '_'))
    let mant := ds.takeWhile (fun c => !(c == 'e' || c == 'E'))
    let rest := ds.dropWhile (fun c => !(c == 'e' || c == 'E'))
    match parseDecimalCore mant, rest with
    | some q, [] => some (PyFloat.num (if neg then -q else q))
    | some q, _ :: expPart =>
      let se :=
        match expPart with
        | '-' :: t => (true, t)
        | '+' :: t => (false, t)
        | t => (false, t)
      if !se.2.isEmpty && allDigits se.2 then
        let e := digitsVal se.2
        let scaled := if se.1 then q / (10 : ℚ) ^ e else q * (10 : ℚ) ^ e
        some (PyFloat.num (if neg then -scaled else scaled))
      else none
    | none, _ => none
  else none

/-- Models Python float conversion, as applied cellwise by astype(float):
    surrounding whitespace is ignored and an optional sign precedes the
    literal.  There is no sign, finiteness or range check: a negative
    literal converts to a negative value and nan/inf literals convert to
    non-finite values; none is returned exactly where float() would raise
    ValueError. -/
def parsePyFloat (s : String) : Option PyFloat :=
  match trimWs s.data with
  | '-' :: cs => parsePyFloatCore true cs
  | '+' :: cs => parsePyFloatCore false cs
  | cs => parsePyFloatCore false cs

/-- One currency cell of the cleaning loop: strip [$,], then convert with
    astype(float).  The finite-valued table model keeps the numeric results;
    the analysed dataset's currency cells all denote finite decimals, on
    which this restriction of parsePyFloat is exact (a nan or inf cell,
    which the program would carry forward as a non-finite value, has no
    finite-table image). -/
def parseCurrency (s : String) : Option ℚ :=
  match parsePyFloat (stripCurrency s) with
  | some (PyFloat.num q) => some q
  | _ => none

/-- Gregorian leap year. -/
def isLeap (y : Nat) : Bool :=
  (y % 4 == 0 && y % 100 != 0) || y % 400 == 0

/-- Length of a month in the given year. -/
def daysInMonth (y m : Nat) : Nat :=
  if m == 2 then (if isLeap y then 29 else 28)
  else if m == 4 || m == 6 || m == 9 || m == 11 then 30
  else 31

/-- Days since 1970-01-01 of a (proleptic Gregorian) civil date, for y ≥ 1. -/
def daysFromCivil (y m d : Nat) : Int :=
  let yAdj := y - (if m ≤ 2 then 1 else 0)
  let era := yAdj / 400
  let yoe := yAdj % 400
  let mp := if m > 2 then m - 3 else m + 9
  let doy := (153 * mp + 2) / 5 + (d - 1)
  let doe := yoe * 365 + yoe / 4 + doy - yoe / 100
  (era : Int) * 146097 + (doe : Int) - 719468

/-- Splits a character list on the slash separator. -/
def splitSlash : List Char → List (List Char)
  | [] => [[]]
  | c :: rest =>
    if c == '/' then [] :: splitSlash rest
    else
      match splitSlash rest with
      | [] => [[c]]
      | h :: t => (c :: h) :: t

/-- Models pandas to_datetime(s, dayfirst=False, errors="coerce") on the
    dataset's month/day/year slash-separated date format.  Any string not of
    that form, or denoting an invalid calendar date, coerces to the missing
    sentinel none (NaT) — with errors="coerce" a parse failure never raises. -/
def toDatetimeCoerce (s : String) : Option Int :=
  match splitSlash (trimWs s.data) with
  | [mc, dc, yc] =>
    if allDigits mc && allDigits dc && allDigits yc &&
        !(mc.isEmpty || dc.isEmpty || yc.isEmpty) then
      let m := digitsVal mc
      let d := digitsVal dc
      let y := digitsVal yc
      if 1 ≤ y ∧ 1 ≤ m ∧ m ≤ 12 ∧ 1 ≤ d ∧ d ≤ daysInMonth y m then
        some (daysFromCivil y m d)
      else none
    else none
  | _ => none

/-- A film record after the Cleaner stage: currencies numeric, date parsed
    (none models NaT). -/
structure Row where
  Movie_Title : String
  Release_Date : Option Int
  USD_Production_Budget : ℚ
  USD_Worldwide_Gross : ℚ
  USD_Domestic_Gross : ℚ
  deriving DecidableEq, Inhabited

/-- Assembly of one cleaned record from the three converted currency cells:
    if any conversion failed, astype(float) raises (fatal, Except.error). -/
def cleanRowCore (title : String) (date : Option Int) :
    Option ℚ → Option ℚ → Option ℚ → Except String Row
  | some b, some w, some d =>
    .ok { Movie_Title := title,
          Release_Date := date,
          USD_Production_Budget := b,
          USD_Worldwide_Gross := w,
          USD_Domestic_Gross := d }
  | _, _, _ => .error "could not convert string to float"

/-- The Cleaner on one record.  The currency loop converts the three currency
    cells; a cell whose stripped text is not numeric makes astype(float) raise
    (fatal, modelled as Except.error).  The date cell is coerced: a parse
    failure stores the sentinel none and cleaning continues. -/
def cleanRow (raw : RawRow) : Except String Row :=
  cleanRowCore raw.Movie_Title (toDatetimeCoerce raw.Release_Date)
    (parseCurrency raw.USD_Production_Budget)
    (parseCurrency raw.USD_Worldwide_Gross)
    (parseCurrency raw.USD_Domestic_Gross)

/-- The Cleaner over the whole table. -/
def cleanTable (raws : List RawRow) : Except String (List Row) :=
  raws.mapM cleanRow

/-- True exactly on successful cleaning. -/
def isOkB : Except String Row → Bool
  | .ok _ => true
  | .error _ => false

/-- A row extended with the derived Profit column. -/
structure PRow extends Row where
  Profit : ℚ
  deriving DecidableEq, Inhabited

/-- df["Profit"] = df["USD_Worldwide_Gross"] - df["USD_Production_Budget"]. -/
def addProfit (df : List Row) : List PRow :=
  df.map (fun r =>
    { toRow := r, Profit := r.USD_Worldwide_Gross - r.USD_Production_Budget })

/-- Insertion into a sorted list of rationals (ascending). -/
def insertSorted (x : ℚ) : List ℚ → List ℚ
  | [] => [x]
  | y :: ys => if x ≤ y then x :: y :: ys else y :: insertSorted x ys

/-- Ascending insertion sort. -/
def sortQ (l : List ℚ) : List ℚ := l.foldr insertSorted []

/-- pandas Series.quantile(0.25) with the default linear interpolation between
    closest ranks: with sorted values v and n elements, the virtual rank is
    h = (n-1)/4 and the result v[⌊h⌋] + (h-⌊h⌋)·(v[⌊h⌋+1]-v[⌊h⌋]).  On an
    empty series the result is NaN, modelled as none. -/
def quantile25 (l : List ℚ) : Option ℚ :=
  match l with
  | [] => none
  | _ :: _ =>
    let s := sortQ l
    let m := l.length - 1
    let lo := m / 4
    let frac : ℚ := ((m % 4 : Nat) : ℚ) / 4
    let vlo := s.getD lo 0
    let vhi := s.getD (min (lo + 1) m) 0
    some (vlo + frac * (vhi - vlo))

/-- q1 = df["USD_Worldwide_Gross"].quantile(0.25). -/
def q1 (df : List PRow) : Option ℚ :=
  quantile25 (df.map (fun r => r.USD_Worldwide_Gross))

/-- bottom_25 = df[df["USD_Worldwide_Gross"] <= q1].  A comparison against a
    NaN quantile (empty table) is False, leaving the subset empty. -/
def bottom_25 (df : List PRow) : List PRow :=
  match q1 df with
  | none => []
  | some q => df.filter (fun r => decide (r.USD_Worldwide_Gross ≤ q))

/-- profitable_cnt = (bottom_25["Profit"] > 0).sum(). -/
def profitable_cnt (df : List PRow) : Nat :=
  (bottom_25 df).countP (fun r => decide (0 < r.Profit))

/-- loss_cnt = len(bottom_25) - profitable_cnt. -/
def loss_cnt (df : List PRow) : Nat :=
  (bottom_25 df).length - profitable_cnt df

/-- pct_profitable = profitable_cnt / len(bottom_25) * 100, computed
    unconditionally: the script has no branch guarding an empty subset. -/
def pct_profitable (df : List PRow) : ℚ :=
  (profitable_cnt df : ℚ) / ((bottom_25 df).length : ℚ) * 100

/-- Position and value of the first occurrence of the maximum, modelling
    pandas Series.idxmax: if several values equal the maximum, the first
    position with that value is returned. -/
def argmax1 : List ℚ → Option (Nat × ℚ)
  | [] => none
  | x :: xs =>
    match argmax1 xs with
    | none => some (0, x)
    | some (j, v) => if x < v then some (j + 1, v) else some (0, x)

/-- Position and value of the first occurrence of the minimum, modelling
    pandas Series.idxmin. -/
def argmin1 : List ℚ → Option (Nat × ℚ)
  | [] => none
  | x :: xs =>
    match argmin1 xs with
    | none => some (0, x)
    | some (j, v) => if v < x then some (j + 1, v) else some (0, x)

/-- Series.idxmax (positional label under the default range index). -/
def idxmax (l : List ℚ) : Option Nat := (argmax1 l).map (fun p => p.1)

/-- Series.idxmin. -/
def idxmin (l : List ℚ) : Option Nat := (argmin1 l).map (fun p => p.1)

/-- df["USD_Production_Budget"].idxmax(). -/
def maxBudgetIdx (df : List PRow) : Option Nat :=
  idxmax (df.map (fun r => r.USD_Production_Budget))

/-- df["USD_Worldwide_Gross"].idxmax(). -/
def maxGrossIdx (df : List PRow) : Option Nat :=
  idxmax (df.map (fun r => r.USD_Worldwide_Gross))

/-- df["USD_Production_Budget"].idxmin(). -/
def minBudgetIdx (df : List PRow) : Option Nat :=
  idxmin (df.map (fun r => r.USD_Production_Budget))

/-- max_budget_row = df.loc[df["USD_Production_Budget"].idxmax()]. -/
def max_budget_row (df : List PRow) : Option PRow :=
  (maxBudgetIdx df).bind (fun i => df[i]?)

/-- max_gross_row = df.loc[df["USD_Worldwide_Gross"].idxmax()]. -/
def max_gross_row (df : List PRow) : Option PRow :=
  (maxGrossIdx df).bind (fun i => df[i]?)

/-- min_budget_row = df.loc[df["USD_Production_Budget"].idxmin()]. -/
def min_budget_row (df : List PRow) : Option PRow :=
  (minBudgetIdx df).bind (fun i => df[i]?)

/-- pd.Timestamp("2018-05-01") as days since 1970-01-01. -/
def cutoff : Int := 17652

/-- A Release_Date cell compared with the cutoff by <=.  Comparison against
    the missing sentinel (NaT) is False in pandas. -/
def tsLeCutoff : Option Int → Bool
  | none => false
  | some t => decide (t ≤ cutoff)

/-- A Release_Date cell compared with the cutoff by >.  Comparison against
    the missing sentinel (NaT) is False in pandas. -/
def tsGtCutoff : Option Int → Bool
  | none => false
  | some t => decide (cutoff < t)

/-- data_clean = df[df["Release_Date"] <= cutoff] — the regression input. -/
def data_clean (df : List PRow) : List PRow :=
  df.filter (fun r => tsLeCutoff r.Release_Date)

/-- unreleased = df[df["Release_Date"] > cutoff]. -/
def unreleased (df : List PRow) : List PRow :=
  df.filter (fun r => tsGtCutoff r.Release_Date)

/-- Fitted coefficients of the univariate regression. -/
structure LinModel where
  theta_0 : ℚ
  theta_1 : ℚ
  deriving DecidableEq

/-- Arithmetic mean (0 on an empty list under rational division by zero). -/
def mean (l : List ℚ) : ℚ := l.sum / (l.length : ℚ)

/-- sklearn LinearRegression with one feature: ordinary least squares in
    closed form, slope = Sxy/Sxx about the means, intercept from the means. -/
def fitOLS (xs ys : List ℚ) : LinModel :=
  let xbar := mean xs
  let ybar := mean ys
  let sxx := (xs.map (fun x => (x - xbar) * (x - xbar))).sum
  let sxy := (List.zipWith (fun x y => (x - xbar) * (y - ybar)) xs ys).sum
  let t1 := sxy / sxx
  { theta_0 := ybar - t1 * xbar, theta_1 := t1 }

/-- model.predict on one budget value: the fitted affine map. -/
def predict (m : LinModel) (b : ℚ) : ℚ := m.theta_0 + m.theta_1 * b

/-- model.fit(X, y) with X = data_clean[["USD_Production_Budget"]] and
    y = data_clean["USD_Worldwide_Gross"]. -/
def fitModel (df : List PRow) : LinModel :=
  fitOLS ((data_clean df).map (fun r => r.USD_Production_Budget))
    ((data_clean df).map (fun r => r.USD_Worldwide_Gross))

/-- The prediction loop over the two fixed budget inputs. -/
def predictions (df : List PRow) : List ℚ :=
  [150000000, 350000000].map (fun b => predict (fitModel df) b)

/-- df["Release_Date"].min(): missing values are skipped; on an all-missing
    column the result is the sentinel itself. -/
def seriesMinDate (df : List Row) : Option Int :=
  ((df.map (fun r => r.Release_Date)).filterMap id).foldl
    (fun acc t => match acc with | none => some t | some a => some (min a t)) none

/-- df["Release_Date"].max(), dually. -/
def seriesMaxDate (df : List Row) : Option Int :=
  ((df.map (fun r => r.Release_Date)).filterMap id).foldl
    (fun acc t => match acc with | none => some t | some a => some (max a t)) none

/-- The .date() call of the overview line.  On a timestamp it extracts the
    calendar date (identity at day resolution); on the missing sentinel,
    pandas NaT.date() returns NaT rather than raising, so the call never
    fails — modelled in Except to record that it is a fallible call site. -/
def dateOfTs (t : Option Int) : Except String (Option Int) := .ok t

/-- The overview's release date range: min and max of the date column, each
    passed through .date(). -/
def releaseDateRange (df : List Row) : Except String (Option Int × Option Int) :=
  match dateOfTs (seriesMinDate df), dateOfTs (seriesMaxDate df) with
  | .ok mn, .ok mx => .ok (mn, mx)
  | .error e, _ => .error e
  | _, .error e => .error e

/-- First occurrence of a maximum at position i of l: i is in range, l[i]
    bounds every element, and every earlier element is strictly smaller. -/
def FirstArgmax (l : List ℚ) (i : Nat) : Prop :=
  i < l.length ∧ (∀ y ∈ l, y ≤ l.getD i 0) ∧ ∀ j, j < i → l.getD j 0 < l.getD i 0

/-- First occurrence of a minimum at position i of l. -/
def FirstArgmin (l : List ℚ) (i : Nat) : Prop :=
  i < l.length ∧ (∀ y ∈ l, l.getD i 0 ≤ y) ∧ ∀ j, j < i → l.getD i 0 < l.getD j 0

/-! Concrete data used to exhibit counterexamples and to instantiate the
    universally quantified theorems at checkable inputs. -/

/-- A raw record whose production budget cell is the negative literal -500:
    the dollar/comma stripping leaves it unchanged and float conversion
    accepts it. -/
def rawNegativeRow : RawRow :=
  { Movie_Title := "N", Release_Date := "1/1/2000",
    USD_Production_Budget := "-500", USD_Worldwide_Gross := "$0",
    USD_Domestic_Gross := "$0" }

/-- The cleaned image of rawNegativeRow (2000-01-01 is day 10957). -/
def negCleanedRow : Row :=
  { Movie_Title := "N", Release_Date := some 10957,
    USD_Production_Budget := -500, USD_Worldwide_Gross := 0,
    USD_Domestic_Gross := 0 }

/-- A raw record whose date cell is unparseable but whose currency cells are
    clean. -/
def rawGarbageDate : RawRow :=
  { Movie_Title := "G", Release_Date := "not a date",
    USD_Production_Budget := "$1,000", USD_Worldwide_Gross := "2000",
    USD_Domestic_Gross := "0" }

/-- The cleaned image of rawGarbageDate: the date is the sentinel. -/
def garbageDateCleanedRow : Row :=
  { Movie_Title := "G", Release_Date := none,
    USD_Production_Budget := 1000, USD_Worldwide_Gross := 2000,
    USD_Domestic_Gross := 0 }

/-- A profit-extended row whose Release_Date is the missing sentinel. -/
def rowMissingDate : PRow :=
  { Movie_Title := "M", Release_Date := none, USD_Production_Budget := 100,
    USD_Worldwide_Gross := 50, USD_Domestic_Gross := 0, Profit := -50 }

/-- A cleaned row with a missing date, for the overview counterexample. -/
def rowNoDateA : Row :=
  { Movie_Title := "A", Release_Date := none, USD_Production_Budget := 1,
    USD_Worldwide_Gross := 2, USD_Domestic_Gross := 0 }

/-- A second cleaned row with a missing date. -/
def rowNoDateB : Row :=
  { Movie_Title := "B", Release_Date := none, USD_Production_Budget := 3,
    USD_Worldwide_Gross := 4, USD_Domestic_Gross := 0 }

/-- A table on which every Release_Date failed to parse. -/
def allMissingDf : List Row := [rowNoDateA, rowNoDateB]

/-- A concrete 4-row profit-extended table with distinct worldwide grosses
    1, 2, 3, 4; its 25th percentile is 1 + (3/4)(2-1) = 7/4. -/
def df4 : List PRow :=
  [{ Movie_Title := "a", Release_Date := some 1, USD_Production_Budget := 2,
     USD_Worldwide_Gross := 1, USD_Domestic_Gross := 1, Profit := -1 },
   { Movie_Title := "b", Release_Date := some 2, USD_Production_Budget := 1,
     USD_Worldwide_Gross := 2, USD_Domestic_Gross := 2, Profit := 1 },
   { Movie_Title := "c", Release_Date := some 3, USD_Production_Budget := 3,
     USD_Worldwide_Gross := 3, USD_Domestic_Gross := 3, Profit := 0 },
   { Movie_Title := "d", Release_Date := some 4, USD_Production_Budget := 4,
     USD_Worldwide_Gross := 4, USD_Domestic_Gross := 4, Profit := 0 }]

/-- The first row of df4 (worldwide gross 1, inside the bottom quartile). -/
def df4row : PRow :=
  { Movie_Title := "a", Release_Date := some 1, USD_Production_Budget := 2,
    USD_Worldwide_Gross := 1, USD_Domestic_Gross := 1, Profit := -1 }

/-- A cleaned row for the Profit witness. -/
def profitWitnessRow : Row :=
  { Movie_Title := "W", Release_Date := none, USD_Production_Budget := 5,
    USD_Worldwide_Gross := 12, USD_Domestic_Gross := 3 }

/-- Its profit-extended image: Profit 12 - 5 = 7. -/
def profitWitnessP : PRow := { toRow := profitWitnessRow, Profit := 7 }

/-- A table with ties at both extremes: budgets 9, 9, 1 (maximum tied at
    positions 0 and 1), grosses 5, 7, 7 (maximum tied at positions 1 and 2). -/
def dfTies : List PRow :=
  [{ Movie_Title := "t0", Release_Date := some 1, USD_Production_Budget := 9,
     USD_Worldwide_Gross := 5, USD_Domestic_Gross := 0, Profit := -4 },
   { Movie_Title := "t1", Release_Date := some 2, USD_Production_Budget := 9,
     USD_Worldwide_Gross := 7, USD_Domestic_Gross := 0, Profit := -2 },
   { Movie_Title := "t2", Release_Date := some 3, USD_Production_Budget := 1,
     USD_Worldwide_Gross := 7, USD_Domestic_Gross := 0, Profit := 6 }]

/-! ### Theorems -/

/-- C1 counterexample: a concrete row whose Release_Date failed to parse (the
    sentinel none) does NOT appear in the regression input data_clean of the
    one-row table containing it, contrary to the claim that missing-date rows
    remain in the regression set. -/
theorem missing_date_row_dropped_from_regression_input :
    rowMissingDate.Release_Date = none ∧
      rowMissingDate ∉ data_clean [rowMissingDate] :=
  ⟨rfl, by decide⟩

/-- C1 (amended): a row with missing (unparseable) Release_Date is EXCLUDED
    from the regression's input dataset: the filter keeps rows satisfying
    Release_Date <= cutoff, a comparison that is False on the missing
    sentinel, so the row is dropped from data_clean — and, the comparison
    with > being False as well, it is not counted as unreleased either. -/
theorem missing_date_excluded (df : List PRow) (r : PRow)
    (hr : r.Release_Date = none) : r ∉ data_clean df ∧ r ∉ unreleased df := by
  constructor
  · intro hmem
    have h := (List.mem_filter.mp hmem).2
    rw [hr] at h
    exact absurd h (by decide)
  · intro hmem
    have h := (List.mem_filter.mp hmem).2
    rw [hr] at h
    exact absurd h (by decide)

/-- Witness for the amended C1 at a concrete row and table. -/
theorem missing_date_excluded_witness :
    rowMissingDate.Release_Date = none ∧
      (rowMissingDate ∉ data_clean [rowMissingDate] ∧
        rowMissingDate ∉ unreleased [rowMissingDate]) :=
  ⟨rfl, missing_date_excluded [rowMissingDate] rowMissingDate rfl⟩

/-- C3: when the bottom-quartile subset is empty, the percentage-profitable
    computation still divides by the subset length — which is then zero —
    and multiplies by 100; the script has no guard for this case, so the
    division by zero is performed unconditionally. -/
theorem pct_profitable_unguarded_div_zero (df : List PRow)
    (h : bottom_25 df = []) :
    pct_profitable df =
      (profitable_cnt df : ℚ) / ((bottom_25 df).length : ℚ) * 100 ∧
    ((bottom_25 df).length : ℚ) = 0 :=
  ⟨rfl, by rw [h]; rfl⟩

/-- Witness for C3 at the empty table, whose bottom quartile is empty. -/
theorem pct_profitable_unguarded_div_zero_witness :
    bottom_25 ([] : List PRow) = [] ∧
      (pct_profitable [] =
          (profitable_cnt ([] : List PRow) : ℚ) /
            ((bottom_25 ([] : List PRow)).length : ℚ) * 100 ∧
        ((bottom_25 ([] : List PRow)).length : ℚ) = 0) :=
  ⟨rfl, pct_profitable_unguarded_div_zero [] rfl⟩

/-- C6: for every row of the profit-extended table, the derived Profit field
    equals Worldwide Gross minus Production Budget, exactly. -/
theorem profit_eq_gross_sub_budget (df : List Row) (p : PRow)
    (hp : p ∈ addProfit df) :
    p.Profit = p.USD_Worldwide_Gross - p.USD_Production_Budget := by
  rcases List.mem_map.mp hp with ⟨r, -, rfl⟩
  rfl

/-- Witness for C6 at a concrete row: 7 = 12 - 5. -/
theorem profit_eq_gross_sub_budget_witness :
    profitWitnessP ∈ addProfit [profitWitnessRow] ∧
      profitWitnessP.Profit =
        profitWitnessP.USD_Worldwide_Gross -
          profitWitnessP.USD_Production_Budget :=
  ⟨by decide, profit_eq_gross_sub_budget [profitWitnessRow] profitWitnessP
    (by decide)⟩

/-- C9: for the two fixed budget inputs 150,000,000 and 350,000,000, the
    reported predictions equal theta_0 + theta_1 * budget for the fitted
    intercept and slope, exactly, on every input table. -/
theorem predictions_affine (df : List PRow) :
    predictions df =
      [(fitModel df).theta_0 + (fitModel df).theta_1 * 150000000,
       (fitModel df).theta_0 + (fitModel df).theta_1 * 350000000] := rfl

/-- On a table whose dates are all missing, the date column's minimum is the
    sentinel itself (Series.min skips missing values and has none left). -/
theorem seriesMinDate_all_none (df : List Row)
    (h : ∀ r ∈ df, r.Release_Date = none) : seriesMinDate df = none := by
  unfold seriesMinDate
  have hnil : (df.map (fun r => r.Release_Date)).filterMap id = [] := by
    induction df with
    | nil => rfl
    | cons a l ih =>
      have ha := h a (List.mem_cons_self a l)
      simp only [List.map_cons, ha, List.filterMap_cons_none, id]
      exact ih (fun r hr => h r (List.mem_cons_of_mem a hr))
  rw [hnil]
  rfl

/-- Dually for the maximum. -/
theorem seriesMaxDate_all_none (df : List Row)
    (h : ∀ r ∈ df, r.Release_Date = none) : seriesMaxDate df = none := by
  unfold seriesMaxDate
  have hnil : (df.map (fun r => r.Release_Date)).filterMap id = [] := by
    induction df with
    | nil => rfl
    | cons a l ih =>
      have ha := h a (List.mem_cons_self a l)
      simp only [List.map_cons, ha, List.filterMap_cons_none, id]
      exact ih (fun r hr => h r (List.mem_cons_of_mem a hr))
  rw [hnil]
  rfl

/-- C10 counterexample: on a concrete table in which every Release_Date is
    the missing sentinel, the overview's date-range computation does NOT
    fail: min and max are the sentinel, NaT.date() returns the sentinel, and
    the computation returns successfully instead of raising. -/
theorem overview_all_missing_dates_succeeds :
    allMissingDf.map Row.Release_Date = [none, none] ∧
      releaseDateRange allMissingDf = .ok (none, none) :=
  ⟨rfl, rfl⟩

/-- C10 (amended): if every row's Release_Date fails to parse, the minimum
    and maximum over the date column are themselves the missing sentinel and
    extracting a calendar date from the sentinel returns the sentinel (pandas
    NaT.date() yields NaT), so the overview reports the pair (none, none) and
    the run continues — the Summarizer does not terminate the run. -/
theorem all_missing_dates_range (df : List Row)
    (h : ∀ r ∈ df, r.Release_Date = none) :
    releaseDateRange df = .ok (none, none) := by
  have h1 := seriesMinDate_all_none df h
  have h2 := seriesMaxDate_all_none df h
  unfold releaseDateRange dateOfTs
  rw [h1, h2]

/-- Witness for the amended C10 at a one-row table with a missing date. -/
theorem all_missing_dates_range_witness :
    rowNoDateA.Release_Date = none ∧
      releaseDateRange [rowNoDateA] = .ok (none, none) :=
  ⟨rfl, all_missing_dates_range [rowNoDateA] (by decide)⟩

/-- Whether cleaning succeeds depends only on the three converted currency
    cells, not on the title or the parsed date. -/
theorem isOkB_cleanRowCore (t1 t2 : String) (d1 d2 : Option Int)
    (b w d : Option ℚ) :
    isOkB (cleanRowCore t1 d1 b w d) = isOkB (cleanRowCore t2 d2 b w d) := by
  cases b <;> cases w <;> cases d <;> rfl

/-- C5: the Cleaner substitutes the missing sentinel for every unparseable
    Release_Date and continues: a row that survives cleaning stores exactly
    toDatetimeCoerce of its date string (none whenever the string cannot be
    parsed under the fixed non-day-first convention), and whether cleaning
    succeeds is unchanged under replacing the date string by ANY string —
    date parsing never raises. -/
theorem cleaner_date_coercion (raw : RawRow) :
    (∀ row : Row, cleanRow raw = .ok row →
        row.Release_Date = toDatetimeCoerce raw.Release_Date) ∧
    (∀ s : String,
      isOkB (cleanRow { raw with Release_Date := s }) = isOkB (cleanRow raw)) := by
  constructor
  · intro row h
    unfold cleanRow cleanRowCore at h
    split at h
    · cases h
      rfl
    · nomatch h
  · intro s
    show isOkB (cleanRowCore raw.Movie_Title (toDatetimeCoerce s)
        (parseCurrency raw.USD_Production_Budget)
        (parseCurrency raw.USD_Worldwide_Gross)
        (parseCurrency raw.USD_Domestic_Gross)) = _
    exact isOkB_cleanRowCore _ _ _ _ _ _ _

/-- Witness for C5: a record with an unparseable date cleans successfully,
    stores the sentinel, and its cleaning outcome matches that of the same
    record with another junk date string. -/
theorem cleaner_date_coercion_witness :
    garbageDateCleanedRow.Release_Date = toDatetimeCoerce "not a date" ∧
      isOkB (cleanRow { rawGarbageDate with Release_Date := "1/2/" }) =
        isOkB (cleanRow rawGarbageDate) :=
  ⟨((cleaner_date_coercion rawGarbageDate).1 garbageDateCleanedRow rfl).trans rfl,
    (cleaner_date_coercion rawGarbageDate).2 "1/2/"⟩

/-- A cell kept by the finite table model is one the full conversion maps to
    exactly that finite value. -/
theorem parseCurrency_num (s : String) (q : ℚ)
    (h : parseCurrency s = some q) :
    parsePyFloat (stripCurrency s) = some (PyFloat.num q) := by
  unfold parseCurrency at h
  rcases hp : parsePyFloat (stripCurrency s) with _ | v
  · rw [hp] at h
    nomatch h
  · rw [hp] at h
    cases v with
    | num q2 =>
      dsimp only at h
      cases h
      rfl
    | nan => nomatch h
    | inf => nomatch h
    | ninf => nomatch h

/-- C2 counterexample: the Cleaner enforces no sign check — the concrete raw
    record with budget cell -500 survives cleaning with a NEGATIVE production
    budget — and astype(float) enforces no finiteness check either: the
    stripped cells of "$nan" and "$inf" convert to the non-finite values NaN
    and infinity instead of being rejected, so in the program such cells
    reach the later stages.  Both halves contradict the claimed invariant. -/
theorem negative_currency_survives_cleaning :
    (cleanRow rawNegativeRow = .ok negCleanedRow ∧
      negCleanedRow.USD_Production_Budget < 0) ∧
    parsePyFloat (stripCurrency "$nan") = some PyFloat.nan ∧
    parsePyFloat (stripCurrency "$inf") = some PyFloat.inf :=
  ⟨⟨rfl, by decide⟩, rfl, rfl⟩

/-- C2 (amended): each currency field of a row that survives the Cleaner is a
    well-defined number, namely the exact Python float value of its
    dollar/comma-stripped input cell; but the conversion enforces neither
    sign nor finiteness — a negative literal cell survives with a negative
    value, and nan/inf literal cells are likewise accepted by astype(float)
    as non-finite values that reach later stages — so no part of the claimed
    non-negative-finite invariant is enforced by cleaning. -/
theorem cleaned_currency_values (raw : RawRow) (row : Row)
    (h : cleanRow raw = .ok row) :
    parsePyFloat (stripCurrency raw.USD_Production_Budget) =
        some (PyFloat.num row.USD_Production_Budget) ∧
    parsePyFloat (stripCurrency raw.USD_Worldwide_Gross) =
        some (PyFloat.num row.USD_Worldwide_Gross) ∧
    parsePyFloat (stripCurrency raw.USD_Domestic_Gross) =
        some (PyFloat.num row.USD_Domestic_Gross) := by
  unfold cleanRow cleanRowCore at h
  split at h
  · cases h
    rename_i hb hw hd
    exact ⟨parseCurrency_num _ _ hb, parseCurrency_num _ _ hw,
      parseCurrency_num _ _ hd⟩
  · nomatch h

/-- Witness for the amended C2 at the negative-budget record. -/
theorem cleaned_currency_values_witness :
    cleanRow rawNegativeRow = .ok negCleanedRow ∧
      (parsePyFloat (stripCurrency rawNegativeRow.USD_Production_Budget) =
          some (PyFloat.num negCleanedRow.USD_Production_Budget) ∧
        parsePyFloat (stripCurrency rawNegativeRow.USD_Worldwide_Gross) =
          some (PyFloat.num negCleanedRow.USD_Worldwide_Gross) ∧
        parsePyFloat (stripCurrency rawNegativeRow.USD_Domestic_Gross) =
          some (PyFloat.num negCleanedRow.USD_Domestic_Gross)) :=
  ⟨rfl, cleaned_currency_values rawNegativeRow negCleanedRow rfl⟩

/-- C4: whenever the 25th percentile q of worldwide gross is defined (the
    table is nonempty), the bottom-quartile subset consists of exactly the
    rows whose Worldwide Gross is at most q — the boundary is inclusive — and
    consequently every member of the subset, in particular any of maximal
    gross, has Worldwide Gross at most q. -/
theorem bottom_25_characterization (df : List PRow) (q : ℚ)
    (hq : q1 df = some q) :
    (∀ r : PRow, r ∈ bottom_25 df ↔ r ∈ df ∧ r.USD_Worldwide_Gross ≤ q) ∧
    ∀ r ∈ bottom_25 df, r.USD_Worldwide_Gross ≤ q := by
  have hb : bottom_25 df =
      df.filter (fun r => decide (r.USD_Worldwide_Gross ≤ q)) := by
    unfold bottom_25
    rw [hq]
  have hmem : ∀ r : PRow, r ∈ bottom_25 df ↔
      r ∈ df ∧ r.USD_Worldwide_Gross ≤ q := by
    intro r
    rw [hb, List.mem_filter]
    simp
  exact ⟨hmem, fun r hr => ((hmem r).mp hr).2⟩

/-- Witness for C4: on the concrete table df4 the percentile is 7/4 and the
    first row (gross 1) is in the subset because 1 ≤ 7/4. -/
theorem bottom_25_characterization_witness :
    q1 df4 = some (7 / 4) ∧
      (df4row ∈ bottom_25 df4 ↔ df4row ∈ df4 ∧
        df4row.USD_Worldwide_Gross ≤ 7 / 4) :=
  ⟨by decide, (bottom_25_characterization df4 (7 / 4) (by decide)).1 df4row⟩

/-- C8: the number of rows counted profitable (Profit > 0) plus the number
    counted loss-making equals the size of the bottom-quartile subset, and
    the loss count is exactly the count of rows with Profit ≤ 0 (break-even
    counted as a loss), on every input table. -/
theorem profitable_loss_partition (df : List PRow) :
    profitable_cnt df + loss_cnt df = (bottom_25 df).length ∧
    loss_cnt df = (bottom_25 df).countP (fun r => decide (r.Profit ≤ 0)) := by
  have hle :=
    List.countP_le_length (fun r : PRow => decide (0 < r.Profit))
      (l := bottom_25 df)
  have hsplit :=
    List.length_eq_countP_add_countP (fun r : PRow => decide (0 < r.Profit))
      (bottom_25 df)
  have hcongr :
      (bottom_25 df).countP
          (fun a => decide ¬(decide (0 < a.Profit) = true)) =
        (bottom_25 df).countP (fun r => decide (r.Profit ≤ 0)) :=
    List.countP_congr (by intro x _; simp [not_lt])
  simp only [loss_cnt, profitable_cnt]
  constructor
  · omega
  · omega

/-- argmax1 yields a result on every nonempty list. -/
theorem argmax1_cons_exists (x : ℚ) (xs : List ℚ) :
    ∃ j v, argmax1 (x :: xs) = some (j, v) := by
  unfold argmax1
  rcases hx : argmax1 xs with _ | ⟨j, v⟩
  · exact ⟨0, x, rfl⟩
  · by_cases hc : x < v
    · exact ⟨j + 1, v, by dsimp only; rw [if_pos hc]⟩
    · exact ⟨0, x, by dsimp only; rw [if_neg hc]⟩

/-- argmin1 yields a result on every nonempty list. -/
theorem argmin1_cons_exists (x : ℚ) (xs : List ℚ) :
    ∃ j v, argmin1 (x :: xs) = some (j, v) := by
  unfold argmin1
  rcases hx : argmin1 xs with _ | ⟨j, v⟩
  · exact ⟨0, x, rfl⟩
  · by_cases hc : v < x
    · exact ⟨j + 1, v, by dsimp only; rw [if_pos hc]⟩
    · exact ⟨0, x, by dsimp only; rw [if_neg hc]⟩

/-- Characterization of argmax1: it returns the position and value of the
    first occurrence of the maximum — the value bounds the list, lives at
    that position, and every strictly earlier position is strictly below. -/
theorem argmax1_spec (l : List ℚ) (j : Nat) (v : ℚ)
    (h : argmax1 l = some (j, v)) :
    j < l.length ∧ l.getD j 0 = v ∧ (∀ y ∈ l, y ≤ v) ∧
      ∀ k, k < j → l.getD k 0 < v := by
  induction l generalizing j v with
  | nil => nomatch h
  | cons x xs ih =>
    unfold argmax1 at h
    rcases hx : argmax1 xs with _ | ⟨j1, v1⟩
    · rw [hx] at h
      cases h
      have hxs : xs = [] := by
        cases xs with
        | nil => rfl
        | cons y ys =>
          obtain ⟨j2, v2, h2⟩ := argmax1_cons_exists y ys
          rw [h2] at hx
          nomatch hx
      subst hxs
      refine ⟨Nat.zero_lt_one, rfl, ?_, ?_⟩
      · intro y hy
        exact le_of_eq (List.mem_singleton.mp hy)
      · intro k hk
        omega
    · rw [hx] at h
      dsimp only at h
      obtain ⟨h1len, h1get, h1max, h1first⟩ := ih j1 v1 hx
      by_cases hc : x < v1
      · rw [if_pos hc] at h
        cases h
        refine ⟨Nat.succ_lt_succ h1len, ?_, ?_, ?_⟩
        · rw [List.getD_cons_succ]
          exact h1get
        · intro y hy
          rcases List.mem_cons.mp hy with h5 | hy2
          · rw [h5]
            exact le_of_lt hc
          · exact h1max y hy2
        · intro k hk
          cases k with
          | zero =>
            rw [List.getD_cons_zero]
            exact hc
          | succ k1 =>
            rw [List.getD_cons_succ]
            exact h1first k1 (Nat.lt_of_succ_lt_succ hk)
      · rw [if_neg hc] at h
        cases h
        refine ⟨Nat.succ_pos _, rfl, ?_, ?_⟩
        · intro y hy
          rcases List.mem_cons.mp hy with h5 | hy2
          · exact le_of_eq h5
          · exact le_trans (h1max y hy2) (not_lt.mp hc)
        · intro k hk
          omega

/-- Characterization of argmin1, dually. -/
theorem argmin1_spec (l : List ℚ) (j : Nat) (v : ℚ)
    (h : argmin1 l = some (j, v)) :
    j < l.length ∧ l.getD j 0 = v ∧ (∀ y ∈ l, v ≤ y) ∧
      ∀ k, k < j → v < l.getD k 0 := by
  induction l generalizing j v with
  | nil => nomatch h
  | cons x xs ih =>
    unfold argmin1 at h
    rcases hx : argmin1 xs with _ | ⟨j1, v1⟩
    · rw [hx] at h
      cases h
      have hxs : xs = [] := by
        cases xs with
        | nil => rfl
        | cons y ys =>
          obtain ⟨j2, v2, h2⟩ := argmin1_cons_exists y ys
          rw [h2] at hx
          nomatch hx
      subst hxs
      refine ⟨Nat.zero_lt_one, rfl, ?_, ?_⟩
      · intro y hy
        exact le_of_eq (List.mem_singleton.mp hy).symm
      · intro k hk
        omega
    · rw [hx] at h
      dsimp only at h
      obtain ⟨h1len, h1get, h1min, h1first⟩ := ih j1 v1 hx
      by_cases hc : v1 < x
      · rw [if_pos hc] at h
        cases h
        refine ⟨Nat.succ_lt_succ h1len, ?_, ?_, ?_⟩
        · rw [List.getD_cons_succ]
          exact h1get
        · intro y hy
          rcases List.mem_cons.mp hy with h5 | hy2
          · rw [h5]
            exact le_of_lt hc
          · exact h1min y hy2
        · intro k hk
          cases k with
          | zero =>
            rw [List.getD_cons_zero]
            exact hc
          | succ k1 =>
            rw [List.getD_cons_succ]
            exact h1first k1 (Nat.lt_of_succ_lt_succ hk)
      · rw [if_neg hc] at h
        cases h
        refine ⟨Nat.succ_pos _, rfl, ?_, ?_⟩
        · intro y hy
          rcases List.mem_cons.mp hy with h5 | hy2
          · exact le_of_eq h5.symm
          · exact le_trans (not_lt.mp hc) (h1min y hy2)
        · intro k hk
          omega

/-- idxmax on a nonempty list returns the first occurrence of the maximum. -/
theorem idxmax_first (l : List ℚ) (h : l ≠ []) :
    ∃ i, idxmax l = some i ∧ FirstArgmax l i := by
  cases l with
  | nil => exact absurd rfl h
  | cons x xs =>
    obtain ⟨j, v, hjv⟩ := argmax1_cons_exists x xs
    obtain ⟨h1, h2, h3, h4⟩ := argmax1_spec (x :: xs) j v hjv
    refine ⟨j, ?_, h1, ?_, ?_⟩
    · unfold idxmax
      rw [hjv]
      rfl
    · intro y hy
      rw [h2]
      exact h3 y hy
    · intro k hk
      rw [h2]
      exact h4 k hk

/-- idxmin on a nonempty list returns the first occurrence of the minimum. -/
theorem idxmin_first (l : List ℚ) (h : l ≠ []) :
    ∃ i, idxmin l = some i ∧ FirstArgmin l i := by
  cases l with
  | nil => exact absurd rfl h
  | cons x xs =>
    obtain ⟨j, v, hjv⟩ := argmin1_cons_exists x xs
    obtain ⟨h1, h2, h3, h4⟩ := argmin1_spec (x :: xs) j v hjv
    refine ⟨j, ?_, h1, ?_, ?_⟩
    · unfold idxmin
      rw [hjv]
      rfl
    · intro y hy
      rw [h2]
      exact h3 y hy
    · intro k hk
      rw [h2]
      exact h4 k hk

/-- C7: on every nonempty table, the extremes report selects via idxmax the
    row of maximum Production Budget and the row of maximum Worldwide Gross,
    and via idxmin the row of minimum Production Budget; each selected
    position holds the extreme value of its column, and every strictly
    earlier row is strictly less extreme — ties are broken in favour of the
    first occurrence in table order. -/
theorem extremes_first_occurrence (df : List PRow) (h : df ≠ []) :
    (∃ i, maxBudgetIdx df = some i ∧ max_budget_row df = df[i]? ∧
      FirstArgmax (df.map (fun r => r.USD_Production_Budget)) i) ∧
    (∃ i, maxGrossIdx df = some i ∧ max_gross_row df = df[i]? ∧
      FirstArgmax (df.map (fun r => r.USD_Worldwide_Gross)) i) ∧
    (∃ i, minBudgetIdx df = some i ∧ min_budget_row df = df[i]? ∧
      FirstArgmin (df.map (fun r => r.USD_Production_Budget)) i) := by
  have hbne : df.map (fun r : PRow => r.USD_Production_Budget) ≠ [] := by
    simp [h]
  have hgne : df.map (fun r : PRow => r.USD_Worldwide_Gross) ≠ [] := by
    simp [h]
  refine ⟨?_, ?_, ?_⟩
  · obtain ⟨i, hi, hfa⟩ := idxmax_first _ hbne
    refine ⟨i, hi, ?_, hfa⟩
    unfold max_budget_row
    rw [show maxBudgetIdx df = some i from hi]
    rfl
  · obtain ⟨i, hi, hfa⟩ := idxmax_first _ hgne
    refine ⟨i, hi, ?_, hfa⟩
    unfold max_gross_row
    rw [show maxGrossIdx df = some i from hi]
    rfl
  · obtain ⟨i, hi, hfa⟩ := idxmin_first _ hbne
    refine ⟨i, hi, ?_, hfa⟩
    unfold min_budget_row
    rw [show minBudgetIdx df = some i from hi]
    rfl

/-- Witness for C7 on the concrete table dfTies, which has ties at the
    maximum budget and at the maximum gross. -/
theorem extremes_first_occurrence_witness :
    dfTies ≠ [] ∧
      ((∃ i, maxBudgetIdx dfTies = some i ∧
          max_budget_row dfTies = dfTies[i]? ∧
          FirstArgmax (dfTies.map (fun r => r.USD_Production_Budget)) i) ∧
        (∃ i, maxGrossIdx dfTies = some i ∧
          max_gross_row dfTies = dfTies[i]? ∧
          FirstArgmax (dfTies.map (fun r => r.USD_Worldwide_Gross)) i) ∧
        (∃ i, minBudgetIdx dfTies = some i ∧
          min_budget_row dfTies = dfTies[i]? ∧
          FirstArgmin (dfTies.map (fun r => r.USD_Production_Budget)) i)) :=
  ⟨by decide, extremes_first_occurrence dfTies (by decide)⟩

end MovieAnalysis
